import Mathlib

/-!
# hackerdrunk_bot: invite attribution and the social-graph log

A shallow embedding of `cmd/main.go`.  Go strings are Lean strings (one
character stands for one byte), `int64` values are integers (the program does
no arithmetic on identifiers), and the effects of the event loop are explicit:
the invite table, the log file, the outgoing messages and the API requests
are fields of `State`, and everything the environment answers (the clock, the
Telegram API, the file system) is read from a `World`, indexed by the number
of calls made so far.  `log.Printf` lines are not modelled; `log.Fatal` ends
the run with `Step.fatal`.
-/

set_option maxRecDepth 100000

namespace HackerDrunk

/-! ## Data model -/

/-- The constant `InvitedByLink`. -/
def InvitedByLink : String := "invited_by_link"

/-- The constant `DirectInvite`. -/
def DirectInvite : String := "direct_invite"

/-- The result of `time.Now()`: seconds since the Unix epoch and the
nanoseconds within that second. -/
structure Time where
  sec : Int
  nsec : Nat
deriving DecidableEq, Repr

/-- The fields of `tgbotapi.User` the program reads. -/
structure User where
  ID : Int
  UserName : String
  FirstName : String
deriving DecidableEq, Repr

/-- The fields of `tgbotapi.Chat` the program reads (`Type_` is the field
`Type`). -/
structure Chat where
  ID : Int
  Type_ : String
deriving DecidableEq, Repr

/-- The library method `Chat.IsPrivate`: the chat type is "private". -/
def Chat.IsPrivate (c : Chat) : Bool := c.Type_ == "private"

/-- The struct `InviteMap`: who made an invite. -/
structure InviteMap where
  InviterId : Int
  Inviter : String
deriving DecidableEq, Repr

/-- The struct `SocialGraphLine`: one edge of the social graph. -/
structure SocialGraphLine where
  Inviter : String
  InviterId : Int
  Invitee : String
  InviteeId : Int
  InviteType : String
  Timestamp : Time
deriving DecidableEq, Repr

/-- A join-request event: the invite link used, the joining user and the
chat, all present (as the event source delivers them). -/
structure ChatJoinRequest where
  Chat : Chat
  From : User
  InviteLink : String
deriving DecidableEq, Repr

/-- A message event: its id, sender, chat, text and the list of newly added
members (a nil slice is the empty list). -/
structure Message where
  MessageID : Int
  From : User
  Chat : Chat
  Text : String
  NewChatMembers : List User
deriving DecidableEq, Repr

/-- An update: the two optional fields the loop looks at.  Any other kind of
update has both absent. -/
structure Update where
  ChatJoinRequest : Option ChatJoinRequest
  Message : Option Message
deriving DecidableEq, Repr

/-- A message handed to `bot.Send`, as `tgbotapi.NewMessage` builds it
(`ReplyToMessageID` is 0 unless set). -/
structure MessageConfig where
  ChatID : Int
  Text : String
  ReplyToMessageID : Int
deriving DecidableEq, Repr

/-- The two request kinds handed to `bot.Request`. -/
inductive Request where
  | approveChatJoinRequest (chatID userID : Int)
  | createChatInviteLink (chatID : Int) (name : String) (expireDate : Int)
      (createsJoinRequest : Bool)
deriving DecidableEq, Repr

/-- The fields of `tgbotapi.APIResponse` the program reads; `Result` is the
raw JSON of the answer. -/
structure APIResponse where
  Ok : Bool
  Result : String
deriving DecidableEq, Repr

/-- The two `encoding/json` calls of the program, taken as parameters:
`marshal` is `json.Marshal` on a `SocialGraphLine` (`none` is an error), and
`unmarshalLink` is `json.Unmarshal` into a `ChatInviteLink` followed by
reading its `InviteLink` field (`none` is an error). -/
structure Lib where
  marshal : SocialGraphLine → Option String
  unmarshalLink : String → Option String

/-- What the environment answers.  `now k` is the result of the call of
`time.Now()` made after `k` earlier ones; `request k` is the result of the
`bot.Request` made after `k` earlier ones (`none` is a non-nil error, which
is also how the library returns an answer that is not Ok);
`write k` is the result of the write on the log file made after `k` earlier
ones: `none` is a nil error with every byte written, `some n` is a non-nil
error after at most `n` bytes were written. -/
structure World where
  now : Nat → Time
  request : Nat → Option APIResponse
  write : Nat → Option Nat

/-- The log file, opened with `O_APPEND`: its content and the number of
writes made on it so far. -/
structure File where
  content : String
  writes : Nat
deriving DecidableEq, Repr

/-- The state of the event loop: the global `invites` table, the log file
`f`, the messages handed to `bot.Send`, the requests handed to `bot.Request`
(both in call order) and the number of `time.Now()` calls so far. -/
structure State where
  invites : String → Option InviteMap
  f : File
  sent : List MessageConfig
  requests : List Request
  nowCalls : Nat

/-- How the handling of one update ends: the loop goes on to the next update
(`next`), or `log.Fatal` ends the process (`fatal`). -/
inductive Step where
  | next (s : State)
  | fatal (s : State)

/-- The state a step ends in. -/
def Step.state : Step → State
  | .next s => s
  | .fatal s => s

/-- Whether the process is still running after the step. -/
def Step.alive : Step → Bool
  | .next _ => true
  | .fatal _ => false

/-! ## The functions of `main.go` -/

/-- `GetUserIdentifier`: the username if it exists, else the first name. -/
def GetUserIdentifier (u : User) : String :=
  if u.UserName == "" then u.FirstName else u.UserName

/-- One `file.Write` / `file.WriteString` call on the log file: the bytes go
to the end of the file; on an error only a prefix of them does.  The result
is the file and whether the error is nil. -/
def File.Write (w : World) (f : File) (b : String) : File × Bool :=
  match w.write f.writes with
  | none => ({ content := f.content ++ b, writes := f.writes + 1 }, true)
  | some n => ({ content := f.content ++ ⟨b.data.take n⟩, writes := f.writes + 1 }, false)

/-- `WriteInvite`: marshal the line, write it, write "\n"; stop at the first
error.  The result is the file and whether the returned error is nil. -/
def WriteInvite (lib : Lib) (w : World) (line : SocialGraphLine) (file : File) :
    File × Bool :=
  match lib.marshal line with
  | none => (file, false)
  | some jsonBytes =>
    match File.Write w file jsonBytes with
    | (file1, false) => (file1, false)
    | (file1, true) =>
      match File.Write w file1 "\n" with
      | (file2, false) => (file2, false)
      | (file2, true) => (file2, true)

/-- The lookup `invitedby, ok := invites[link]` with its fallback to the
record of the unknown inviter (lines 121 to 127). -/
def resolve (invites : String → Option InviteMap) (link : String) : InviteMap × Bool :=
  match invites link with
  | some invitedby => (invitedby, true)
  | none => ({ Inviter := "unknown", InviterId := 0 }, false)

/-- The assignment `invites[link] = inviteMap` (line 219). -/
def register (invites : String → Option InviteMap) (link : String) (inviteMap : InviteMap) :
    String → Option InviteMap :=
  fun k => if k = link then some inviteMap else invites k

/-- What `fmt.Sprintf` prints for an `InviteMap` under the verb `%s`: the
fields in declaration order between braces, the `int64` one with the
bad-verb marker. -/
def InviteMap.format (m : InviteMap) : String :=
  "\x7b%!s(int64=" ++ toString m.InviterId ++ ") " ++ m.Inviter ++ "\x7d"

/-- The welcome message of the join-request branch (line 142). -/
def joinWelcome (chatId : Int) (username : String) (invitedby : InviteMap) : MessageConfig :=
  { ChatID := chatId
    Text := "Say hello to " ++ username ++ " who just joined us by invite from: "
      ++ invitedby.format
    ReplyToMessageID := 0 }

/-- The welcome message of the direct-add branch (line 182). -/
def addWelcome (chatId : Int) (username : String) : MessageConfig :=
  { ChatID := chatId, Text := "Hi welcome @" ++ username ++ "!", ReplyToMessageID := 0 }

/-- The reply that carries a generated invite link (lines 222 and 223). -/
def linkReply (m : Message) (link : String) : MessageConfig :=
  { ChatID := m.Chat.ID
    Text := "Generated invite link for hackerdrinks: " ++ link
      ++ "\nThis link is valid for 5 minutes"
    ReplyToMessageID := m.MessageID }

/-- The edge the join-request branch builds (lines 129 to 135); `InviterId`
is not set there and keeps the zero value. -/
def joinEdge (invitedby : InviteMap) (j : ChatJoinRequest) (now : Time) : SocialGraphLine :=
  { Inviter := invitedby.Inviter
    InviterId := 0
    Invitee := GetUserIdentifier j.From
    InviteeId := j.From.ID
    InviteType := InvitedByLink
    Timestamp := now }

/-- The edge the direct-add branch builds for the new member `v` (lines 168
to 175). -/
def addEdge (sender : User) (v : User) (now : Time) : SocialGraphLine :=
  { Inviter := sender.UserName
    InviterId := sender.ID
    Invitee := GetUserIdentifier v
    InviteeId := v.ID
    InviteType := DirectInvite
    Timestamp := now }

/-- The join-request branch of the loop (lines 105 to 152). -/
def handleJoinRequest (lib : Lib) (w : World) (s : State) (j : ChatJoinRequest) : Step :=
  let username := GetUserIdentifier j.From
  let userid := j.From.ID
  let chatId := j.Chat.ID
  let s1 := { s with requests := s.requests ++ [Request.approveChatJoinRequest chatId userid] }
  match w.request s.requests.length with
  | none => .fatal s1
  | some resp =>
    if resp.Ok then
      let invitedby := (resolve s1.invites j.InviteLink).1
      let g := joinEdge invitedby j (w.now s1.nowCalls)
      let file := (WriteInvite lib w g s1.f).1
      .next { s1 with
        nowCalls := s1.nowCalls + 1
        f := file
        sent := s1.sent ++ [joinWelcome chatId username invitedby] }
    else
      .next s1

/-- The loop over `NewChatMembers` (lines 161 to 185). -/
def addMembers (lib : Lib) (w : World) (chatId : Int) (sender : User) :
    State → List User → State
  | s, [] => s
  | s, v :: vs =>
    if v.ID = sender.ID then
      addMembers lib w chatId sender s vs
    else
      let username := GetUserIdentifier v
      let g := addEdge sender v (w.now s.nowCalls)
      let file := (WriteInvite lib w g s.f).1
      addMembers lib w chatId sender
        { s with
          nowCalls := s.nowCalls + 1
          f := file
          sent := s.sent ++ [addWelcome chatId username] }
        vs

/-- `strings.Contains`. -/
def strContains (s substr : List Char) : Bool :=
  match s with
  | [] => substr.isEmpty
  | c :: cs => substr.isPrefixOf (c :: cs) || strContains cs substr

/-- The `/invite` command (lines 190 to 227).  `update.FromChat()` is the
chat of the message, since the message is present. -/
def inviteCommand (lib : Lib) (baseRoomId : Int) (w : World) (s : State) (m : Message) : Step :=
  if strContains m.Text.data "/invite".data then
    if m.Chat.IsPrivate then
      let x := Request.createChatInviteLink baseRoomId "tmp" ((w.now s.nowCalls).sec + 300) true
      let s1 := { s with nowCalls := s.nowCalls + 1, requests := s.requests ++ [x] }
      match w.request s.requests.length with
      | none => .fatal s1
      | some resp =>
        match lib.unmarshalLink resp.Result with
        | none => .fatal s1
        | some inviteLink =>
          let username := GetUserIdentifier m.From
          let inviteMap : InviteMap := { Inviter := username, InviterId := m.From.ID }
          .next { s1 with
            invites := register s1.invites inviteLink inviteMap
            sent := s1.sent ++ [linkReply m inviteLink] }
    else .next s
  else .next s

/-- The message branch of the loop (lines 154 to 228). -/
def handleMessage (lib : Lib) (baseRoomId : Int) (w : World) (s : State) (m : Message) : Step :=
  inviteCommand lib baseRoomId w (addMembers lib w m.Chat.ID m.From s m.NewChatMembers) m

/-- The body of the loop `for update := range updates` (lines 102 to 229). -/
def handleUpdate (lib : Lib) (baseRoomId : Int) (w : World) (s : State) (update : Update) : Step :=
  match update.ChatJoinRequest with
  | some chatJoinRequest => handleJoinRequest lib w s chatJoinRequest
  | none =>
    match update.Message with
    | some m => handleMessage lib baseRoomId w s m
    | none => .next s

/-- The loop over the updates, in arrival order. -/
def runLoop (lib : Lib) (baseRoomId : Int) (w : World) : State → List Update → Step
  | s, [] => .next s
  | s, update :: updates =>
    match handleUpdate lib baseRoomId w s update with
    | .next s1 => runLoop lib baseRoomId w s1 updates
    | .fatal s1 => .fatal s1

/-! ## Definitions used to state the properties -/

/-- A sequence of registrations (token, record), applied in order with
`register`. -/
def registerAll (invites : String → Option InviteMap) (regs : List (String × InviteMap)) :
    String → Option InviteMap :=
  regs.foldl (fun m p => register m p.1 p.2) invites

/-- `WriteInvite` called on the lines in order: the file after the last call,
and whether every call returned a nil error. -/
def writeAll (lib : Lib) (w : World) : File → List SocialGraphLine → File × Bool
  | file, [] => (file, true)
  | file, g :: gs =>
    let r := WriteInvite lib w g file
    let rs := writeAll lib w r.1 gs
    (rs.1, r.2 && rs.2)

/-- The concatenation of the records, each followed by one "\n". -/
def concatRecords : List String → String
  | [] => ""
  | r :: rs => r ++ "\n" ++ concatRecords rs

/-- The records of a log: its pieces that end at a "\n", in order and
without the "\n"; what follows the last "\n" is not a record. -/
def logRecords (content : String) : List (List Char) :=
  (content.data.splitOn '\n').dropLast

/-- The edges of a direct add by `sender`, one per member whose id differs
from the sender's, in list order; `k` is the number of `time.Now()` calls
made before. -/
def addEdges (w : World) (sender : User) : Nat → List User → List SocialGraphLine
  | _, [] => []
  | k, v :: vs =>
    if v.ID = sender.ID then addEdges w sender k vs
    else addEdge sender v (w.now k) :: addEdges w sender (k + 1) vs

/-- What the library's `bot.Request` can return: an answer that is not Ok
comes back together with a non-nil error, so a result with a nil error is
Ok. -/
def World.requestContract (w : World) : Prop :=
  ∀ k resp, w.request k = some resp → resp.Ok = true

/-- The approval failed: the request returned an error, or a response that
is not Ok. -/
def approvalFails (r : Option APIResponse) : Bool :=
  match r with
  | none => true
  | some resp => !resp.Ok

/-! ## Concrete inputs -/

/-- A stand-in for `json.Marshal` at concrete inputs: the field names of the
struct tags in declaration order, strings without escaping, the timestamp as
seconds since the epoch. -/
def demoMarshal (g : SocialGraphLine) : Option String :=
  some ("\x7b\"inviter\":\"" ++ g.Inviter ++ "\",\"inviter_id\":" ++ toString g.InviterId
    ++ ",\"invitee\":\"" ++ g.Invitee ++ "\",\"invitee_id\":" ++ toString g.InviteeId
    ++ ",\"invite_type\":\"" ++ g.InviteType ++ "\",\"timestamp\":"
    ++ toString g.Timestamp.sec ++ "\x7d")

/-- A library whose `unmarshalLink` takes the raw result as the link. -/
def demoLib : Lib := { marshal := demoMarshal, unmarshalLink := fun r => some r }

/-- The room the bot manages in the examples. -/
def demoRoom : Int := -1001

/-- A world where every request is answered Ok with the link
"https://t.me/+abc" and every write succeeds. -/
def goodWorld : World :=
  { now := fun k => ⟨1700000000 + k, 0⟩
    request := fun _ => some ⟨true, "https://t.me/+abc"⟩
    write := fun _ => none }

/-- As `goodWorld`, but every write on the log file fails with nothing
written. -/
def diskFullWorld : World := { goodWorld with write := fun _ => some 0 }

/-- As `goodWorld`, but every request returns an error. -/
def offlineWorld : World := { goodWorld with request := fun _ => none }

/-- As `goodWorld`, but only the first request is answered; every later one
returns an error. -/
def flakyWorld : World :=
  { goodWorld with
    request := fun k => if k = 0 then some ⟨true, "https://t.me/+abc"⟩ else none }

/-- The state at the start of the loop, with an empty log file. -/
def emptyState : State :=
  { invites := fun _ => none, f := ⟨"", 0⟩, sent := [], requests := [], nowCalls := 0 }

/-- A user without a username. -/
def alice : User := ⟨1, "", "Alice"⟩

/-- A user with a username. -/
def bob : User := ⟨2, "bob", "Bob"⟩

/-- Another user with a username. -/
def carol : User := ⟨3, "carol", "Carol"⟩

/-- The group chat of the examples. -/
def groupChat : Chat := ⟨-1001, "supergroup"⟩

/-- Alice asks for an invite link in her private chat with the bot. -/
def inviteUpdate : Update :=
  ⟨none, some ⟨7, alice, ⟨1, "private"⟩, "/invite", []⟩⟩

/-- Bob asks to join with the link "https://t.me/+abc". -/
def joinUpdate : Update :=
  ⟨some ⟨groupChat, bob, "https://t.me/+abc"⟩, none⟩

/-- Alice adds Bob and Carol to the group. -/
def addUpdate : Update :=
  ⟨none, some ⟨8, alice, groupChat, "", [bob, carol]⟩⟩

/-- Someone writes "/invite" in the group. -/
def groupInviteUpdate : Update :=
  ⟨none, some ⟨9, bob, groupChat, "/invite", []⟩⟩

/-- As `goodWorld`, but the second request is answered with another link,
"https://t.me/+xyz". -/
def twoLinksWorld : World :=
  { goodWorld with
    request := fun k =>
      if k = 1 then some ⟨true, "https://t.me/+xyz"⟩ else some ⟨true, "https://t.me/+abc"⟩ }

/-- Bob asks for an invite link in his private chat with the bot. -/
def bobInviteUpdate : Update :=
  ⟨none, some ⟨11, bob, ⟨2, "private"⟩, "/invite", []⟩⟩

/-- Carol asks to join with the link "https://t.me/+abc". -/
def carolJoinUpdate : Update :=
  ⟨some ⟨groupChat, carol, "https://t.me/+abc"⟩, none⟩

/-- Two edges, as the two branches build them. -/
def demoEdges : List SocialGraphLine :=
  [joinEdge ⟨1, "Alice"⟩ ⟨groupChat, bob, "https://t.me/+abc"⟩ ⟨1700000000, 0⟩,
   addEdge bob carol ⟨1700000001, 0⟩]

/-! ## The invite table -/

theorem resolve_register_same (invites : String → Option InviteMap) (t : String)
    (r : InviteMap) : resolve (register invites t r) t = (r, true) := by
  simp [resolve, register]

theorem resolve_register_other (invites : String → Option InviteMap) (t k : String)
    (r : InviteMap) (h : k ≠ t) :
    resolve (register invites k r) t = resolve invites t := by
  have h2 : ¬ t = k := fun e => h e.symm
  simp [resolve, register, h2]

theorem registerAll_append (invites : String → Option InviteMap)
    (xs ys : List (String × InviteMap)) :
    registerAll invites (xs ++ ys) = registerAll (registerAll invites xs) ys := by
  simp [registerAll, List.foldl_append]

/-- C7. After any sequence of registrations in which the token `t` occurs,
resolving `t` finds a record, and it is the record of the last registration
of `t`: the sequence splits into the registrations before it, that
registration, and later registrations that are all of other tokens. -/
theorem resolve_after_registrations (invites : String → Option InviteMap)
    (regs : List (String × InviteMap)) (t : String)
    (h : t ∈ regs.map Prod.fst) :
    ∃ pre r post, regs = pre ++ (t, r) :: post ∧ (∀ p ∈ post, p.1 ≠ t) ∧
      resolve (registerAll invites regs) t = (r, true) := by
  induction regs using List.reverseRecOn with
  | nil => simp at h
  | append_singleton init last ih =>
    obtain ⟨k, v⟩ := last
    by_cases hk : k = t
    · subst hk
      refine ⟨init, v, [], rfl, by simp, ?_⟩
      rw [registerAll_append]
      exact resolve_register_same _ _ _
    · have hin : t ∈ init.map Prod.fst := by
        simp only [List.map_append, List.mem_append, List.map_cons, List.map_nil,
          List.mem_singleton] at h
        rcases h with h | h
        · exact h
        · exact absurd h.symm hk
      obtain ⟨pre, r, post, hsplit, hpost, hres⟩ := ih hin
      refine ⟨pre, r, post ++ [(k, v)], ?_, ?_, ?_⟩
      · rw [hsplit]; simp
      · intro p hp
        rcases List.mem_append.mp hp with hp | hp
        · exact hpost p hp
        · simp only [List.mem_singleton] at hp
          subst hp
          exact hk
      · rw [registerAll_append]
        show resolve (register (registerAll invites init) k v) t = (r, true)
        rw [resolve_register_other _ _ _ _ hk]
        exact hres

/-- Witness of C7: the token "t" is registered for Alice, then another token
for Carol, then "t" again for Bob; resolving "t" returns Bob. -/
theorem resolve_after_registrations_witness :
    (∃ pre r post,
      [("t", (⟨1, "Alice"⟩ : InviteMap)), ("u", ⟨3, "carol"⟩), ("t", ⟨2, "bob"⟩)]
        = pre ++ ("t", r) :: post ∧ (∀ p ∈ post, p.1 ≠ "t") ∧
      resolve (registerAll (fun _ => none)
        [("t", ⟨1, "Alice"⟩), ("u", ⟨3, "carol"⟩), ("t", ⟨2, "bob"⟩)]) "t" = (r, true)) ∧
    resolve (registerAll (fun _ => none)
        [("t", ⟨1, "Alice"⟩), ("u", ⟨3, "carol"⟩), ("t", ⟨2, "bob"⟩)]) "t"
      = (⟨2, "bob"⟩, true) :=
  ⟨resolve_after_registrations (fun _ => none)
      [("t", ⟨1, "Alice"⟩), ("u", ⟨3, "carol"⟩), ("t", ⟨2, "bob"⟩)] "t" (by decide),
    by decide⟩

/-! ## The loop over the new members -/

theorem addMembers_invites (lib : Lib) (w : World) (chatId : Int) (sender : User)
    (s : State) (vs : List User) :
    (addMembers lib w chatId sender s vs).invites = s.invites := by
  induction vs generalizing s with
  | nil => rfl
  | cons v vs ih =>
    unfold addMembers
    split
    · exact ih s
    · rw [ih]

theorem addMembers_requests (lib : Lib) (w : World) (chatId : Int) (sender : User)
    (s : State) (vs : List User) :
    (addMembers lib w chatId sender s vs).requests = s.requests := by
  induction vs generalizing s with
  | nil => rfl
  | cons v vs ih =>
    unfold addMembers
    split
    · exact ih s
    · rw [ih]

theorem addMembers_sent (lib : Lib) (w : World) (chatId : Int) (sender : User)
    (s : State) (vs : List User) :
    (addMembers lib w chatId sender s vs).sent
      = s.sent ++ (vs.filter (fun v => decide (v.ID ≠ sender.ID))).map
          (fun v => addWelcome chatId (GetUserIdentifier v)) := by
  induction vs generalizing s with
  | nil => simp [addMembers]
  | cons v vs ih =>
    unfold addMembers
    split
    · rename_i h
      rw [ih s]
      simp [h]
    · rename_i h
      rw [ih]
      simp [h]

theorem addMembers_f (lib : Lib) (w : World) (chatId : Int) (sender : User)
    (s : State) (vs : List User) :
    (addMembers lib w chatId sender s vs).f
      = (writeAll lib w s.f (addEdges w sender s.nowCalls vs)).1 := by
  induction vs generalizing s with
  | nil => rfl
  | cons v vs ih =>
    unfold addMembers addEdges
    split
    · exact ih s
    · rw [ih]
      rfl

theorem inviteCommand_not_private (lib : Lib) (baseRoomId : Int) (w : World) (s : State)
    (m : Message) (h : m.Chat.IsPrivate = false) :
    inviteCommand lib baseRoomId w s m = .next s := by
  unfold inviteCommand
  simp [h]

theorem inviteCommand_no_command (lib : Lib) (baseRoomId : Int) (w : World) (s : State)
    (m : Message) (h : strContains m.Text.data "/invite".data = false) :
    inviteCommand lib baseRoomId w s m = .next s := by
  unfold inviteCommand
  simp [h]

/-- What the `/invite` command adds to the messages sent: nothing, or the
reply with the link; and it ends the process only on a private `/invite`. -/
theorem inviteCommand_sent (lib : Lib) (baseRoomId : Int) (w : World) (s : State)
    (m : Message) :
    ∃ rest, (inviteCommand lib baseRoomId w s m).state.sent = s.sent ++ rest ∧
      (rest = [] ∨ ∃ link, rest = [linkReply m link]) ∧
      ((inviteCommand lib baseRoomId w s m).alive = false →
        strContains m.Text.data "/invite".data = true ∧ m.Chat.IsPrivate = true ∧ rest = []) := by
  by_cases h1 : strContains m.Text.data "/invite".data = true
  · by_cases h2 : m.Chat.IsPrivate = true
    · cases hr : w.request s.requests.length with
      | none =>
        refine ⟨[], ?_, Or.inl rfl, fun _ => ⟨h1, h2, rfl⟩⟩
        simp [inviteCommand, h1, h2, hr, Step.state]
      | some resp =>
        cases hl : lib.unmarshalLink resp.Result with
        | none =>
          refine ⟨[], ?_, Or.inl rfl, fun _ => ⟨h1, h2, rfl⟩⟩
          simp [inviteCommand, h1, h2, hr, hl, Step.state]
        | some link =>
          refine ⟨[linkReply m link], ?_, Or.inr ⟨link, rfl⟩, fun h => ?_⟩
          · simp [inviteCommand, h1, h2, hr, hl, Step.state]
          · simp [inviteCommand, h1, h2, hr, hl, Step.alive] at h
    · refine ⟨[], ?_, Or.inl rfl, fun h => ?_⟩
      · simp [inviteCommand, h1, h2, Step.state]
      · simp [inviteCommand, h1, h2, Step.alive] at h
  · refine ⟨[], ?_, Or.inl rfl, fun h => ?_⟩
    · simp [inviteCommand, h1, Step.state]
    · simp [inviteCommand, h1, Step.alive] at h

/-! ## Frame of a group message -/

/-- C6. A message from a chat that is not private and without new members,
whatever its text, leaves the whole state as it was: no request is made, the
invite table, the log file and the messages sent are unchanged, and the loop
goes on. -/
theorem group_message_no_effect (lib : Lib) (baseRoomId : Int) (w : World) (s : State)
    (u : Update) (m : Message) (hj : u.ChatJoinRequest = none) (hm : u.Message = some m)
    (hpriv : m.Chat.IsPrivate = false) (hnew : m.NewChatMembers = []) :
    handleUpdate lib baseRoomId w s u = .next s := by
  unfold handleUpdate handleMessage
  simp only [hj, hm, hnew, addMembers]
  exact inviteCommand_not_private lib baseRoomId w s m hpriv

/-- Witness of C6: "/invite" written in the group. -/
theorem group_message_no_effect_witness :
    handleUpdate demoLib demoRoom goodWorld emptyState groupInviteUpdate
      = .next emptyState :=
  group_message_no_effect demoLib demoRoom goodWorld emptyState groupInviteUpdate
    ⟨9, bob, groupChat, "/invite", []⟩ rfl rfl (by decide) rfl

/-! ## Failure of the join approval -/

/-- Counterexample to C5: the approval request returns an error, and the
process is terminated. -/
theorem join_approval_error_is_fatal :
    approvalFails (offlineWorld.request emptyState.requests.length) = true ∧
    (handleUpdate demoLib demoRoom offlineWorld emptyState joinUpdate).alive = false := by
  decide

/-- C5, amended. The library returns a failed approval as an error, and then
`log.Fatal` ends the process: no edge is appended to the log, no message is
sent, the invite table is unchanged, and no later update is handled. -/
theorem join_approval_failure (lib : Lib) (baseRoomId : Int) (w : World) (s : State)
    (u : Update) (j : ChatJoinRequest) (hu : u.ChatJoinRequest = some j)
    (hlib : w.requestContract)
    (hfail : approvalFails (w.request s.requests.length) = true) :
    w.request s.requests.length = none ∧
    handleUpdate lib baseRoomId w s u = .fatal
      { s with requests := s.requests ++
        [Request.approveChatJoinRequest j.Chat.ID j.From.ID] } ∧
    (handleUpdate lib baseRoomId w s u).alive = false ∧
    (handleUpdate lib baseRoomId w s u).state.f = s.f ∧
    (handleUpdate lib baseRoomId w s u).state.sent = s.sent ∧
    (handleUpdate lib baseRoomId w s u).state.invites = s.invites ∧
    ∀ rest, runLoop lib baseRoomId w s (u :: rest) = handleUpdate lib baseRoomId w s u := by
  have hstep : handleUpdate lib baseRoomId w s u = handleJoinRequest lib w s j := by
    unfold handleUpdate
    simp [hu]
  have hr : w.request s.requests.length = none := by
    cases hr : w.request s.requests.length with
    | none => rfl
    | some resp =>
      have hok := hlib _ resp hr
      simp [approvalFails, hr, hok] at hfail
  have hfatal : handleUpdate lib baseRoomId w s u = .fatal
      { s with requests := s.requests ++
        [Request.approveChatJoinRequest j.Chat.ID j.From.ID] } := by
    rw [hstep]; unfold handleJoinRequest; simp [hr]
  refine ⟨hr, hfatal, by simp [hfatal, Step.alive], by simp [hfatal, Step.state],
    by simp [hfatal, Step.state], by simp [hfatal, Step.state], ?_⟩
  intro rest
  conv_lhs => unfold runLoop
  simp [hfatal]

/-- Witness of C5, amended: Alice has created the link, and the approval of
Bob's join request returns an error. -/
theorem join_approval_failure_witness :
    flakyWorld.request
      (handleUpdate demoLib demoRoom flakyWorld emptyState inviteUpdate).state.requests.length
      = none ∧
    handleUpdate demoLib demoRoom flakyWorld
      (handleUpdate demoLib demoRoom flakyWorld emptyState inviteUpdate).state joinUpdate
      = .fatal
        { (handleUpdate demoLib demoRoom flakyWorld emptyState inviteUpdate).state with
          requests :=
            (handleUpdate demoLib demoRoom flakyWorld emptyState inviteUpdate).state.requests
              ++ [Request.approveChatJoinRequest groupChat.ID bob.ID] } ∧
    (handleUpdate demoLib demoRoom flakyWorld
      (handleUpdate demoLib demoRoom flakyWorld emptyState inviteUpdate).state
      joinUpdate).alive = false ∧
    (handleUpdate demoLib demoRoom flakyWorld
      (handleUpdate demoLib demoRoom flakyWorld emptyState inviteUpdate).state
      joinUpdate).state.f
      = (handleUpdate demoLib demoRoom flakyWorld emptyState inviteUpdate).state.f ∧
    (handleUpdate demoLib demoRoom flakyWorld
      (handleUpdate demoLib demoRoom flakyWorld emptyState inviteUpdate).state
      joinUpdate).state.sent
      = (handleUpdate demoLib demoRoom flakyWorld emptyState inviteUpdate).state.sent ∧
    (handleUpdate demoLib demoRoom flakyWorld
      (handleUpdate demoLib demoRoom flakyWorld emptyState inviteUpdate).state
      joinUpdate).state.invites
      = (handleUpdate demoLib demoRoom flakyWorld emptyState inviteUpdate).state.invites ∧
    ∀ rest, runLoop demoLib demoRoom flakyWorld
        (handleUpdate demoLib demoRoom flakyWorld emptyState inviteUpdate).state
        (joinUpdate :: rest)
      = handleUpdate demoLib demoRoom flakyWorld
          (handleUpdate demoLib demoRoom flakyWorld emptyState inviteUpdate).state joinUpdate :=
  join_approval_failure demoLib demoRoom flakyWorld
    (handleUpdate demoLib demoRoom flakyWorld emptyState inviteUpdate).state joinUpdate
    ⟨groupChat, bob, "https://t.me/+abc"⟩ rfl
    (by
      intro k resp h
      by_cases hk : k = 0
      · simp [flakyWorld, hk] at h
        rw [← h]
      · simp [flakyWorld, hk] at h)
    (by decide)

/-! ## The log file -/

theorem WriteInvite_ok (lib : Lib) (w : World) (g : SocialGraphLine) (file : File)
    (h : (WriteInvite lib w g file).2 = true) :
    ∃ rec, lib.marshal g = some rec ∧
      (WriteInvite lib w g file).1 = ⟨file.content ++ rec ++ "\n", file.writes + 2⟩ := by
  unfold WriteInvite at h ⊢
  cases hm : lib.marshal g with
  | none => simp [hm] at h
  | some rec =>
    refine ⟨rec, rfl, ?_⟩
    simp only [hm] at h ⊢
    unfold File.Write at h ⊢
    cases h1 : w.write file.writes with
    | some n => simp [h1] at h
    | none =>
      simp only [h1] at h ⊢
      cases h2 : w.write (file.writes + 1) with
      | some n => simp [h2] at h
      | none => simp [h2]

theorem File.Write_extends (w : World) (file : File) (b : String) :
    ∃ tail, (File.Write w file b).1.content = file.content ++ tail := by
  unfold File.Write
  cases w.write file.writes with
  | none => exact ⟨b, rfl⟩
  | some n => exact ⟨⟨b.data.take n⟩, rfl⟩

theorem WriteInvite_extends (lib : Lib) (w : World) (g : SocialGraphLine) (file : File) :
    ∃ tail, (WriteInvite lib w g file).1.content = file.content ++ tail := by
  unfold WriteInvite
  cases hm : lib.marshal g with
  | none => exact ⟨"", by simp⟩
  | some rec =>
    simp only []
    unfold File.Write
    cases h1 : w.write file.writes with
    | some n => exact ⟨⟨rec.data.take n⟩, by simp⟩
    | none =>
      simp only []
      cases h2 : w.write (file.writes + 1) with
      | some n => exact ⟨rec ++ ⟨"\n".data.take n⟩, by simp [h2, String.append_assoc]⟩
      | none => exact ⟨rec ++ "\n", by simp [h2, String.append_assoc]⟩

theorem writeAll_extends (lib : Lib) (w : World) (file : File) (gs : List SocialGraphLine) :
    ∃ tail, (writeAll lib w file gs).1.content = file.content ++ tail := by
  induction gs generalizing file with
  | nil => exact ⟨"", by simp [writeAll]⟩
  | cons g gs ih =>
    obtain ⟨t1, h1⟩ := WriteInvite_extends lib w g file
    obtain ⟨t2, h2⟩ := ih (WriteInvite lib w g file).1
    refine ⟨t1 ++ t2, ?_⟩
    show (writeAll lib w (WriteInvite lib w g file).1 gs).1.content = _
    rw [h2, h1, String.append_assoc]

theorem writeAll_append_fst (lib : Lib) (w : World) (file : File)
    (gs hs : List SocialGraphLine) :
    (writeAll lib w file (gs ++ hs)).1
      = (writeAll lib w (writeAll lib w file gs).1 hs).1 := by
  induction gs generalizing file with
  | nil => rfl
  | cons g gs ih => exact ih (WriteInvite lib w g file).1

theorem writeAll_ok (lib : Lib) (w : World) (file : File) (gs : List SocialGraphLine)
    (h : (writeAll lib w file gs).2 = true) :
    ∃ recs, gs.map lib.marshal = recs.map some ∧
      (writeAll lib w file gs).1.content = file.content ++ concatRecords recs := by
  induction gs generalizing file with
  | nil => exact ⟨[], rfl, by simp [writeAll, concatRecords]⟩
  | cons g gs ih =>
    have h' : (WriteInvite lib w g file).2 = true ∧
        (writeAll lib w (WriteInvite lib w g file).1 gs).2 = true := by
      simpa [writeAll] using h
    obtain ⟨rec, hrec, hfile⟩ := WriteInvite_ok lib w g file h'.1
    obtain ⟨recs, hrecs, hcont⟩ := ih (WriteInvite lib w g file).1 h'.2
    refine ⟨rec :: recs, by simp [hrec, hrecs], ?_⟩
    show (writeAll lib w (WriteInvite lib w g file).1 gs).1.content = _
    rw [hcont, hfile]
    simp [concatRecords, String.append_assoc]

theorem splitOn_concatRecords (recs : List String) (h : ∀ r ∈ recs, '\n' ∉ r.data) :
    (concatRecords recs).data.splitOn '\n' = recs.map String.data ++ [[]] := by
  induction recs with
  | nil => rfl
  | cons r rs ih =>
    have hr : ∀ x ∈ r.data, ¬ (x == '\n') = true := by
      intro x hx hxe
      rw [beq_iff_eq] at hxe
      subst hxe
      exact h r (List.mem_cons_self _ _) hx
    have hrs : ∀ r' ∈ rs, '\n' ∉ r'.data := fun r' hr' => h r' (List.mem_cons_of_mem _ hr')
    have hdata : (concatRecords (r :: rs)).data = r.data ++ '\n' :: (concatRecords rs).data := by
      simp [concatRecords]
    rw [hdata, List.splitOn, List.splitOnP_first _ _ hr '\n' (by simp)]
    have ih' := ih hrs
    rw [List.splitOn] at ih'
    rw [ih']
    simp

/-- C9. When `WriteInvite` is called on the edges in order and every call
returns a nil error, every edge has a serialization and the log is the
earlier content followed by the serializations in call order, each followed
by one "\n"; at any point of the sequence the content written so far is a
prefix of the final content; and on an initially empty log whose
serializations contain no "\n", the records of the log (its pieces ending
at a "\n") are exactly the serializations in call order, as many as the
edges: splitting the log on "\n" gives them, followed by the empty
remainder after the last "\n". -/
theorem log_is_concatenation_of_records (lib : Lib) (w : World) (file : File)
    (es : List SocialGraphLine) (hok : (writeAll lib w file es).2 = true) :
    ∃ recs, es.map lib.marshal = recs.map some ∧ recs.length = es.length ∧
      (writeAll lib w file es).1.content = file.content ++ concatRecords recs ∧
      (∀ es1 es2, es = es1 ++ es2 →
        ∃ tail, (writeAll lib w file es).1.content
          = (writeAll lib w file es1).1.content ++ tail) ∧
      (file.content = "" → (∀ r ∈ recs, '\n' ∉ r.data) →
        logRecords (writeAll lib w file es).1.content = recs.map String.data ∧
        (writeAll lib w file es).1.content.data.splitOn '\n'
          = recs.map String.data ++ [[]]) := by
  obtain ⟨recs, hrecs, hcont⟩ := writeAll_ok lib w file es hok
  refine ⟨recs, hrecs, ?_, hcont, ?_, ?_⟩
  · have := congrArg List.length hrecs
    simpa using this.symm
  · intro es1 es2 hsplit
    subst hsplit
    rw [writeAll_append_fst]
    exact writeAll_extends lib w _ es2
  · intro hempty hnl
    rw [hcont, hempty, String.empty_append]
    have hsplit := splitOn_concatRecords recs hnl
    refine ⟨?_, hsplit⟩
    unfold logRecords
    rw [hsplit]
    simp

/-- Witness of C9: two edges written on an empty log. -/
theorem log_is_concatenation_of_records_witness :
    ∃ recs, demoEdges.map demoLib.marshal = recs.map some ∧
      recs.length = demoEdges.length ∧
      (writeAll demoLib goodWorld ⟨"", 0⟩ demoEdges).1.content
        = (⟨"", 0⟩ : File).content ++ concatRecords recs ∧
      (∀ es1 es2, demoEdges = es1 ++ es2 →
        ∃ tail, (writeAll demoLib goodWorld ⟨"", 0⟩ demoEdges).1.content
          = (writeAll demoLib goodWorld ⟨"", 0⟩ es1).1.content ++ tail) ∧
      ((⟨"", 0⟩ : File).content = "" → (∀ r ∈ recs, '\n' ∉ r.data) →
        logRecords (writeAll demoLib goodWorld ⟨"", 0⟩ demoEdges).1.content
          = recs.map String.data ∧
        (writeAll demoLib goodWorld ⟨"", 0⟩ demoEdges).1.content.data.splitOn '\n'
          = recs.map String.data ++ [[]]) :=
  log_is_concatenation_of_records demoLib goodWorld ⟨"", 0⟩ demoEdges (by decide)

/-! ## The join-request branch -/

theorem handleUpdate_join (lib : Lib) (baseRoomId : Int) (w : World) (s : State)
    (u : Update) (j : ChatJoinRequest) (hu : u.ChatJoinRequest = some j) :
    handleUpdate lib baseRoomId w s u = handleJoinRequest lib w s j := by
  unfold handleUpdate
  simp [hu]

theorem handleUpdate_message (lib : Lib) (baseRoomId : Int) (w : World) (s : State)
    (u : Update) (m : Message) (hj : u.ChatJoinRequest = none) (hm : u.Message = some m) :
    handleUpdate lib baseRoomId w s u = handleMessage lib baseRoomId w s m := by
  unfold handleUpdate
  simp [hj, hm]

theorem handleJoinRequest_ok (lib : Lib) (w : World) (s : State) (j : ChatJoinRequest)
    (resp : APIResponse) (hr : w.request s.requests.length = some resp)
    (hok : resp.Ok = true) :
    handleJoinRequest lib w s j = .next
      { invites := s.invites
        f := (WriteInvite lib w
          (joinEdge (resolve s.invites j.InviteLink).1 j (w.now s.nowCalls)) s.f).1
        sent := s.sent ++
          [joinWelcome j.Chat.ID (GetUserIdentifier j.From) (resolve s.invites j.InviteLink).1]
        requests := s.requests ++ [Request.approveChatJoinRequest j.Chat.ID j.From.ID]
        nowCalls := s.nowCalls + 1 } := by
  unfold handleJoinRequest
  simp [hr, hok]

/-- The content of the log after one `WriteInvite` call that returns a nil
error. -/
theorem WriteInvite_ok_content (lib : Lib) (w : World) (g : SocialGraphLine) (file : File)
    (h : (WriteInvite lib w g file).2 = true) :
    ∃ rec, lib.marshal g = some rec ∧
      (WriteInvite lib w g file).1.content = file.content ++ rec ++ "\n" := by
  obtain ⟨rec, h1, h2⟩ := WriteInvite_ok lib w g file h
  exact ⟨rec, h1, by rw [h2]⟩

/-- Counterexample to C3: the token is not registered, the approval is Ok,
and the write on the log file fails: the log is as it was, no edge is
appended. -/
theorem unknown_token_join_write_fails :
    emptyState.invites "https://t.me/+abc" = none ∧
    diskFullWorld.request emptyState.requests.length = some ⟨true, "https://t.me/+abc"⟩ ∧
    (handleUpdate demoLib demoRoom diskFullWorld emptyState joinUpdate).alive = true ∧
    (handleUpdate demoLib demoRoom diskFullWorld emptyState joinUpdate).state.f.content
      = emptyState.f.content := by
  decide

/-- C3, amended. A join request whose token is not a key of the invite table
and whose approval is Ok never ends the process and makes exactly one
`WriteInvite` call, on the edge with inviter "unknown", inviter id 0, type
"invited_by_link" and the invitee fields of the joining user; when that call
returns a nil error the log grows by exactly the serialization of this edge
and one "\n". -/
theorem unknown_token_join (lib : Lib) (baseRoomId : Int) (w : World) (s : State)
    (u : Update) (j : ChatJoinRequest) (resp : APIResponse)
    (hu : u.ChatJoinRequest = some j) (hnone : s.invites j.InviteLink = none)
    (hr : w.request s.requests.length = some resp) (hok : resp.Ok = true) :
    ∃ s1, handleUpdate lib baseRoomId w s u = .next s1 ∧
      s1.f = (WriteInvite lib w
        { Inviter := "unknown", InviterId := 0, Invitee := GetUserIdentifier j.From,
          InviteeId := j.From.ID, InviteType := "invited_by_link",
          Timestamp := w.now s.nowCalls } s.f).1 ∧
      ((WriteInvite lib w
        { Inviter := "unknown", InviterId := 0, Invitee := GetUserIdentifier j.From,
          InviteeId := j.From.ID, InviteType := "invited_by_link",
          Timestamp := w.now s.nowCalls } s.f).2 = true →
        ∃ rec, lib.marshal
          { Inviter := "unknown", InviterId := 0, Invitee := GetUserIdentifier j.From,
            InviteeId := j.From.ID, InviteType := "invited_by_link",
            Timestamp := w.now s.nowCalls } = some rec ∧
          s1.f.content = s.f.content ++ rec ++ "\n") := by
  rw [handleUpdate_join lib baseRoomId w s u j hu, handleJoinRequest_ok lib w s j resp hr hok]
  have hres : (resolve s.invites j.InviteLink).1 = { Inviter := "unknown", InviterId := 0 } := by
    simp [resolve, hnone]
  refine ⟨_, rfl, ?_, ?_⟩
  · simp only [hres]
    rfl
  · intro h
    simp only [hres]
    exact WriteInvite_ok_content lib w _ s.f h

/-- Witness of C3, amended: Bob joins with a link that was never
registered. -/
theorem unknown_token_join_witness :
    ∃ s1, handleUpdate demoLib demoRoom goodWorld emptyState joinUpdate = .next s1 ∧
      s1.f = (WriteInvite demoLib goodWorld
        { Inviter := "unknown", InviterId := 0, Invitee := GetUserIdentifier bob,
          InviteeId := bob.ID, InviteType := "invited_by_link",
          Timestamp := goodWorld.now emptyState.nowCalls } emptyState.f).1 ∧
      ((WriteInvite demoLib goodWorld
        { Inviter := "unknown", InviterId := 0, Invitee := GetUserIdentifier bob,
          InviteeId := bob.ID, InviteType := "invited_by_link",
          Timestamp := goodWorld.now emptyState.nowCalls } emptyState.f).2 = true →
        ∃ rec, demoLib.marshal
          { Inviter := "unknown", InviterId := 0, Invitee := GetUserIdentifier bob,
            InviteeId := bob.ID, InviteType := "invited_by_link",
            Timestamp := goodWorld.now emptyState.nowCalls } = some rec ∧
          s1.f.content = emptyState.f.content ++ rec ++ "\n") :=
  unknown_token_join demoLib demoRoom goodWorld emptyState joinUpdate
    ⟨groupChat, bob, "https://t.me/+abc"⟩ ⟨true, "https://t.me/+abc"⟩ rfl rfl rfl rfl

/-! ## Attribution of a join by link -/

theorem inviteCommand_registers (lib : Lib) (baseRoomId : Int) (w : World) (s : State)
    (m : Message) (resp : APIResponse) (t : String)
    (hpriv : m.Chat.IsPrivate = true)
    (hcmd : strContains m.Text.data "/invite".data = true)
    (hr : w.request s.requests.length = some resp)
    (hl : lib.unmarshalLink resp.Result = some t) :
    inviteCommand lib baseRoomId w s m = .next
      { invites := register s.invites t
          { Inviter := GetUserIdentifier m.From, InviterId := m.From.ID }
        f := s.f
        sent := s.sent ++ [linkReply m t]
        requests := s.requests ++
          [Request.createChatInviteLink baseRoomId "tmp" ((w.now s.nowCalls).sec + 300) true]
        nowCalls := s.nowCalls + 1 } := by
  simp [inviteCommand, hpriv, hcmd, hr, hl]

/-- What the `/invite` command does to the entry of `t` in the invite table:
it leaves it, or it made one request to create a link that was answered with
`t`. -/
theorem inviteCommand_frame (lib : Lib) (baseRoomId : Int) (w : World) (s s1 : State)
    (m : Message) (t : String) (h : inviteCommand lib baseRoomId w s m = .next s1) :
    ∃ extra, s1.requests = s.requests ++ extra ∧
      (s1.invites t = s.invites t ∨
        ∃ c n e b resp, extra = [Request.createChatInviteLink c n e b] ∧
          w.request s.requests.length = some resp ∧
          lib.unmarshalLink resp.Result = some t) := by
  by_cases h1 : strContains m.Text.data "/invite".data = true
  · by_cases h2 : m.Chat.IsPrivate = true
    · cases hr : w.request s.requests.length with
      | none => simp [inviteCommand, h1, h2, hr] at h
      | some resp =>
        cases hl : lib.unmarshalLink resp.Result with
        | none => simp [inviteCommand, h1, h2, hr, hl] at h
        | some link =>
          rw [inviteCommand_registers lib baseRoomId w s m resp link h2 h1 hr hl] at h
          have hs := Step.next.inj h
          refine ⟨[Request.createChatInviteLink baseRoomId "tmp"
            ((w.now s.nowCalls).sec + 300) true], by rw [← hs], ?_⟩
          by_cases hlt : t = link
          · right
            exact ⟨_, _, _, _, resp, rfl, rfl, by rw [hl, hlt]⟩
          · left
            rw [← hs]
            simp [register, hlt]
    · have hb : m.Chat.IsPrivate = false := by simpa using h2
      rw [inviteCommand_not_private lib baseRoomId w s m hb] at h
      have hs := Step.next.inj h
      exact ⟨[], by rw [← hs]; simp, Or.inl (by rw [← hs])⟩
  · have hb : strContains m.Text.data "/invite".data = false := by simpa using h1
    rw [inviteCommand_no_command lib baseRoomId w s m hb] at h
    have hs := Step.next.inj h
    exact ⟨[], by rw [← hs]; simp, Or.inl (by rw [← hs])⟩

/-- What one update does to the entry of `t` in the invite table: it leaves
it, or it made one request to create a link that was answered with `t`. -/
theorem handleUpdate_frame (lib : Lib) (baseRoomId : Int) (w : World) (s s1 : State)
    (u : Update) (t : String) (h : handleUpdate lib baseRoomId w s u = .next s1) :
    ∃ extra, s1.requests = s.requests ++ extra ∧
      (s1.invites t = s.invites t ∨
        ∃ c n e b resp, extra = [Request.createChatInviteLink c n e b] ∧
          w.request s.requests.length = some resp ∧
          lib.unmarshalLink resp.Result = some t) := by
  cases hj : u.ChatJoinRequest with
  | some j =>
    rw [handleUpdate_join lib baseRoomId w s u j hj] at h
    cases hr : w.request s.requests.length with
    | none => simp [handleJoinRequest, hr] at h
    | some resp =>
      cases hok : resp.Ok with
      | true =>
        rw [handleJoinRequest_ok lib w s j resp hr hok] at h
        have hs := Step.next.inj h
        exact ⟨[Request.approveChatJoinRequest j.Chat.ID j.From.ID], by rw [← hs],
          Or.inl (by rw [← hs])⟩
      | false =>
        simp only [handleJoinRequest, hr, hok] at h
        have hs := Step.next.inj h
        exact ⟨[Request.approveChatJoinRequest j.Chat.ID j.From.ID], by rw [← hs],
          Or.inl (by rw [← hs])⟩
  | none =>
    cases hm : u.Message with
    | none =>
      have hs : s = s1 := by
        have h2 : handleUpdate lib baseRoomId w s u = .next s := by
          unfold handleUpdate
          simp [hj, hm]
        rw [h2] at h
        exact Step.next.inj h
      exact ⟨[], by rw [← hs]; simp, Or.inl (by rw [← hs])⟩
    | some m =>
      rw [handleUpdate_message lib baseRoomId w s u m hj hm] at h
      unfold handleMessage at h
      obtain ⟨extra, h1, h2⟩ := inviteCommand_frame lib baseRoomId w _ s1 m t h
      rw [addMembers_requests] at h1 h2
      rw [addMembers_invites] at h2
      exact ⟨extra, h1, h2⟩

/-- What a run of the loop does to the entry of `t` in the invite table: it
leaves it, or one of the requests made during the run was a request to create
a link that was answered with `t`. -/
theorem runLoop_frame (lib : Lib) (baseRoomId : Int) (w : World) (t : String)
    (us : List Update) (s s2 : State) (h : runLoop lib baseRoomId w s us = .next s2) :
    ∃ extra, s2.requests = s.requests ++ extra ∧
      (s2.invites t = s.invites t ∨
        ∃ pre c n e b post resp,
          s2.requests = s.requests ++ pre ++ Request.createChatInviteLink c n e b :: post ∧
          w.request (s.requests.length + pre.length) = some resp ∧
          lib.unmarshalLink resp.Result = some t) := by
  induction us generalizing s with
  | nil =>
    have hs : s = s2 := Step.next.inj (by simpa [runLoop] using h)
    exact ⟨[], by rw [← hs]; simp, Or.inl (by rw [← hs])⟩
  | cons u us ih =>
    unfold runLoop at h
    cases hu : handleUpdate lib baseRoomId w s u with
    | fatal sa => simp [hu] at h
    | next sa =>
      simp only [hu] at h
      obtain ⟨ex1, hreq1, hinv1⟩ := handleUpdate_frame lib baseRoomId w s sa u t hu
      obtain ⟨ex2, hreq2, hinv2⟩ := ih sa h
      refine ⟨ex1 ++ ex2, by rw [hreq2, hreq1, List.append_assoc], ?_⟩
      rcases hinv2 with hinv2 | ⟨pre, c, n, e, b, post, resp, hdec, hresp, hl⟩
      · rcases hinv1 with hinv1 | ⟨c, n, e, b, resp, hex, hresp, hl⟩
        · exact Or.inl (by rw [hinv2, hinv1])
        · right
          refine ⟨[], c, n, e, b, ex2, resp, ?_, by simpa using hresp, hl⟩
          rw [hreq2, hreq1, hex]
          simp
      · right
        refine ⟨ex1 ++ pre, c, n, e, b, post, resp, ?_, ?_, hl⟩
        · rw [hdec, hreq1]
          simp
        · rw [hreq1] at hresp
          simpa [Nat.add_assoc] using hresp

/-- Counterexample to C1: Alice creates the link in her private chat, Bob
joins with it and the approval is Ok, but the write on the log file fails:
the log is as it was before the join request, no edge is appended. -/
theorem link_invite_join_write_fails :
    (handleUpdate demoLib demoRoom diskFullWorld emptyState inviteUpdate).alive = true ∧
    (handleUpdate demoLib demoRoom diskFullWorld emptyState inviteUpdate).state.invites
      "https://t.me/+abc" = some ⟨1, "Alice"⟩ ∧
    diskFullWorld.request
      (handleUpdate demoLib demoRoom diskFullWorld emptyState inviteUpdate).state.requests.length
      = some ⟨true, "https://t.me/+abc"⟩ ∧
    (handleUpdate demoLib demoRoom diskFullWorld
      (handleUpdate demoLib demoRoom diskFullWorld emptyState inviteUpdate).state
      joinUpdate).alive = true ∧
    (handleUpdate demoLib demoRoom diskFullWorld
      (handleUpdate demoLib demoRoom diskFullWorld emptyState inviteUpdate).state
      joinUpdate).state.f.content
      = (handleUpdate demoLib demoRoom diskFullWorld emptyState inviteUpdate).state.f.content := by
  decide

/-- C1, amended. A private-chat `/invite` message from `mI.From` is handled
and the platform returns the link `t`; then the updates `mid` are handled,
and no request to create a link made while handling them is answered with
`t`; then a join request with `t` is handled and its approval is Ok.  The
join request makes exactly one `WriteInvite` call, on the edge whose inviter
is the identifier of the creator of the link, whose invitee and invitee id
are those of the joining user and whose type is "invited_by_link"; when that
call returns a nil error, the log grows by exactly the serialization of this
edge and one "\n". -/
theorem link_invite_attribution (lib : Lib) (baseRoomId : Int) (w : World)
    (s0 s1 s2 : State) (uI : Update) (mI : Message) (resp0 : APIResponse) (t : String)
    (mid : List Update) (uJ : Update) (j : ChatJoinRequest) (resp : APIResponse)
    (hI1 : uI.ChatJoinRequest = none) (hI2 : uI.Message = some mI)
    (hpriv : mI.Chat.IsPrivate = true)
    (hcmd : strContains mI.Text.data "/invite".data = true)
    (hresp0 : w.request s0.requests.length = some resp0)
    (hlink : lib.unmarshalLink resp0.Result = some t)
    (hstep : handleUpdate lib baseRoomId w s0 uI = .next s1)
    (hmid : runLoop lib baseRoomId w s1 mid = .next s2)
    (hno : ∀ pre c n e b post r,
      s2.requests = s1.requests ++ pre ++ Request.createChatInviteLink c n e b :: post →
      w.request (s1.requests.length + pre.length) = some r →
      lib.unmarshalLink r.Result ≠ some t)
    (hJ : uJ.ChatJoinRequest = some j) (htok : j.InviteLink = t)
    (hresp : w.request s2.requests.length = some resp) (hok : resp.Ok = true) :
    ∃ s3, handleUpdate lib baseRoomId w s2 uJ = .next s3 ∧
      s3.f = (WriteInvite lib w
        { Inviter := GetUserIdentifier mI.From, InviterId := 0,
          Invitee := GetUserIdentifier j.From, InviteeId := j.From.ID,
          InviteType := "invited_by_link", Timestamp := w.now s2.nowCalls } s2.f).1 ∧
      ((WriteInvite lib w
        { Inviter := GetUserIdentifier mI.From, InviterId := 0,
          Invitee := GetUserIdentifier j.From, InviteeId := j.From.ID,
          InviteType := "invited_by_link", Timestamp := w.now s2.nowCalls } s2.f).2 = true →
        ∃ rec, lib.marshal
          { Inviter := GetUserIdentifier mI.From, InviterId := 0,
            Invitee := GetUserIdentifier j.From, InviteeId := j.From.ID,
            InviteType := "invited_by_link", Timestamp := w.now s2.nowCalls } = some rec ∧
          s3.f.content = s2.f.content ++ rec ++ "\n") := by
  have hkeep : s2.invites t = s1.invites t := by
    obtain ⟨_, _, hfr⟩ := runLoop_frame lib baseRoomId w t mid s1 s2 hmid
    rcases hfr with hfr | ⟨pre, c, n, e, b, post, r, hdec, hr, hl⟩
    · exact hfr
    · exact absurd hl (hno pre c n e b post r hdec hr)
  have hreq : w.request
      (addMembers lib w mI.Chat.ID mI.From s0 mI.NewChatMembers).requests.length
        = some resp0 := by
    rw [addMembers_requests]; exact hresp0
  have hs1 : s1.invites t = some { Inviter := GetUserIdentifier mI.From, InviterId := mI.From.ID } := by
    rw [handleUpdate_message lib baseRoomId w s0 uI mI hI1 hI2] at hstep
    unfold handleMessage at hstep
    rw [inviteCommand_registers lib baseRoomId w _ mI resp0 t hpriv hcmd hreq hlink] at hstep
    have := Step.next.inj hstep
    rw [← this]
    simp [register]
  have hres : (resolve s2.invites j.InviteLink).1
      = { Inviter := GetUserIdentifier mI.From, InviterId := mI.From.ID } := by
    simp [resolve, htok, hkeep, hs1]
  rw [handleUpdate_join lib baseRoomId w s2 uJ j hJ,
    handleJoinRequest_ok lib w s2 j resp hresp hok]
  refine ⟨_, rfl, ?_, ?_⟩
  · simp only [hres]
    rfl
  · intro h
    simp only [hres]
    exact WriteInvite_ok_content lib w _ s2.f h

/-- Witness of C1, amended: Alice creates the link "https://t.me/+abc", then
adds Bob and Carol directly, then Bob creates a link of his own and is
answered with "https://t.me/+xyz", and then Carol joins with Alice's
link. -/
theorem link_invite_attribution_witness :
    ∃ s3, handleUpdate demoLib demoRoom twoLinksWorld
        (runLoop demoLib demoRoom twoLinksWorld emptyState
          [inviteUpdate, addUpdate, bobInviteUpdate]).state
        carolJoinUpdate = .next s3 ∧
      s3.f = (WriteInvite demoLib twoLinksWorld
        { Inviter := GetUserIdentifier alice, InviterId := 0,
          Invitee := GetUserIdentifier carol, InviteeId := carol.ID,
          InviteType := "invited_by_link",
          Timestamp := twoLinksWorld.now
                  (runLoop demoLib demoRoom twoLinksWorld emptyState
                [inviteUpdate, addUpdate, bobInviteUpdate]).state.nowCalls }
        (runLoop demoLib demoRoom twoLinksWorld emptyState
          [inviteUpdate, addUpdate, bobInviteUpdate]).state.f).1 ∧
      ((WriteInvite demoLib twoLinksWorld
        { Inviter := GetUserIdentifier alice, InviterId := 0,
          Invitee := GetUserIdentifier carol, InviteeId := carol.ID,
          InviteType := "invited_by_link",
          Timestamp := twoLinksWorld.now
                  (runLoop demoLib demoRoom twoLinksWorld emptyState
                [inviteUpdate, addUpdate, bobInviteUpdate]).state.nowCalls }
        (runLoop demoLib demoRoom twoLinksWorld emptyState
          [inviteUpdate, addUpdate, bobInviteUpdate]).state.f).2
          = true →
        ∃ rec, demoLib.marshal
          { Inviter := GetUserIdentifier alice, InviterId := 0,
            Invitee := GetUserIdentifier carol, InviteeId := carol.ID,
            InviteType := "invited_by_link",
            Timestamp := twoLinksWorld.now
                  (runLoop demoLib demoRoom twoLinksWorld emptyState
                [inviteUpdate, addUpdate, bobInviteUpdate]).state.nowCalls } = some rec ∧
          s3.f.content
            = (runLoop demoLib demoRoom twoLinksWorld emptyState
          [inviteUpdate, addUpdate, bobInviteUpdate]).state.f.content ++ rec ++ "\n") :=
  link_invite_attribution demoLib demoRoom twoLinksWorld emptyState
    (handleUpdate demoLib demoRoom twoLinksWorld emptyState inviteUpdate).state
    (runLoop demoLib demoRoom twoLinksWorld emptyState
          [inviteUpdate, addUpdate, bobInviteUpdate]).state
    inviteUpdate ⟨7, alice, ⟨1, "private"⟩, "/invite", []⟩ ⟨true, "https://t.me/+abc"⟩
    "https://t.me/+abc" [addUpdate, bobInviteUpdate] carolJoinUpdate
    ⟨groupChat, carol, "https://t.me/+abc"⟩
    ⟨true, "https://t.me/+abc"⟩ rfl rfl (by decide) (by decide) rfl rfl rfl rfl
    (by
      intro pre c n e b post r hdec hr
      have h1 : (handleUpdate demoLib demoRoom twoLinksWorld emptyState inviteUpdate).state.requests
          = [Request.createChatInviteLink demoRoom "tmp" 1700000300 true] := by decide
      have h2 : (runLoop demoLib demoRoom twoLinksWorld emptyState
          [inviteUpdate, addUpdate, bobInviteUpdate]).state.requests
          = [Request.createChatInviteLink demoRoom "tmp" 1700000300 true,
             Request.createChatInviteLink demoRoom "tmp" 1700000303 true] := by decide
      rw [h1] at hr
      rw [h2, h1] at hdec
      rcases pre with _ | ⟨p, pre⟩
      · have hr1 : r = ⟨true, "https://t.me/+xyz"⟩ := by
          have : twoLinksWorld.request 1 = some r := hr
          simpa [twoLinksWorld] using this.symm
        rw [hr1]
        decide
      · have hlen := congrArg List.length hdec
        simp at hlen)
    rfl rfl rfl rfl

/-- C2: the code at the failing input.  Alice (id 1) creates the link, so the
invite table holds her identifier and her id for it; Bob joins with the link
and every write succeeds; the record appended has inviter "Alice" but
inviter id 0. -/
theorem link_join_edge_has_zero_inviter_id :
    (handleUpdate demoLib demoRoom goodWorld emptyState inviteUpdate).state.invites
      "https://t.me/+abc" = some ⟨1, "Alice"⟩ ∧
    (runLoop demoLib demoRoom goodWorld emptyState [inviteUpdate, joinUpdate]).alive = true ∧
    (runLoop demoLib demoRoom goodWorld emptyState [inviteUpdate, joinUpdate]).state.f.content
      = "\x7b\"inviter\":\"Alice\",\"inviter_id\":0,\"invitee\":\"bob\",\"invitee_id\":2,"
        ++ "\"invite_type\":\"invited_by_link\",\"timestamp\":1700000001\x7d\n" := by
  decide

/-! ## Direct adds -/

theorem inviteCommand_f (lib : Lib) (baseRoomId : Int) (w : World) (s : State)
    (m : Message) : (inviteCommand lib baseRoomId w s m).state.f = s.f := by
  by_cases h1 : strContains m.Text.data "/invite".data = true
  · by_cases h2 : m.Chat.IsPrivate = true
    · cases hr : w.request s.requests.length with
      | none => simp [inviteCommand, h1, h2, hr, Step.state]
      | some resp =>
        cases hl : lib.unmarshalLink resp.Result with
        | none => simp [inviteCommand, h1, h2, hr, hl, Step.state]
        | some link => simp [inviteCommand, h1, h2, hr, hl, Step.state]
    · simp [inviteCommand, h1, h2, Step.state]
  · simp [inviteCommand, h1, Step.state]

theorem addEdges_forall2 (w : World) (sender : User) (k : Nat) (vs : List User) :
    List.Forall₂
      (fun v g => g.InviteType = "direct_invite" ∧ g.InviterId = sender.ID ∧
        g.Invitee = GetUserIdentifier v ∧ g.InviteeId = v.ID)
      (vs.filter (fun v => decide (v.ID ≠ sender.ID))) (addEdges w sender k vs) := by
  induction vs generalizing k with
  | nil => simp [addEdges]
  | cons v vs ih =>
    unfold addEdges
    by_cases h : v.ID = sender.ID
    · simp only [h, if_true]
      have : List.filter (fun v => decide (v.ID ≠ sender.ID)) (v :: vs)
          = List.filter (fun v => decide (v.ID ≠ sender.ID)) vs := by
        simp [List.filter, h]
      rw [this]
      exact ih k
    · simp only [h, if_false]
      have : List.filter (fun v => decide (v.ID ≠ sender.ID)) (v :: vs)
          = v :: List.filter (fun v => decide (v.ID ≠ sender.ID)) vs := by
        simp [List.filter, h]
      rw [this]
      exact List.Forall₂.cons ⟨rfl, rfl, rfl, rfl⟩ (ih (k + 1))

theorem addEdges_invitee_ne (w : World) (sender : User) (k : Nat) (vs : List User) :
    ∀ g ∈ addEdges w sender k vs, g.InviteeId ≠ sender.ID := by
  induction vs generalizing k with
  | nil => simp [addEdges]
  | cons v vs ih =>
    unfold addEdges
    by_cases h : v.ID = sender.ID
    · simp only [h, if_true]
      exact ih k
    · simp only [h, if_false]
      intro g hg
      rcases List.mem_cons.mp hg with hg | hg
      · subst hg
        exact h
      · exact ih (k + 1) g hg

/-- Counterexample to C4: Alice adds Bob and Carol, and the writes on the log
file fail: the log is as it was, no edge is appended for Bob or Carol. -/
theorem direct_add_write_fails :
    bob.ID ≠ alice.ID ∧ carol.ID ≠ alice.ID ∧ bob.ID ≠ carol.ID ∧
    (handleUpdate demoLib demoRoom diskFullWorld emptyState addUpdate).alive = true ∧
    (handleUpdate demoLib demoRoom diskFullWorld emptyState addUpdate).state.f.content
      = emptyState.f.content := by
  decide

/-- C4, amended. Handling a message with sender `m.From` and new members
`m.NewChatMembers` calls `WriteInvite` on exactly one edge per member whose
id differs from the sender's, in list order, each of type "direct_invite",
with the sender's id as inviter id and the member's identifier and id as
invitee; no edge has the sender's id as invitee id; when every one of these
calls returns a nil error, the log grows by exactly the serializations of
these edges in order, each followed by one "\n"; for the members [B, C] or
[A, B, C] with B and C other than the sender A these are two edges, for B
and for C. -/
theorem direct_add_edges (lib : Lib) (baseRoomId : Int) (w : World) (s : State)
    (u : Update) (m : Message) (hu1 : u.ChatJoinRequest = none) (hu2 : u.Message = some m) :
    (handleUpdate lib baseRoomId w s u).state.f
      = (writeAll lib w s.f (addEdges w m.From s.nowCalls m.NewChatMembers)).1 ∧
    List.Forall₂
      (fun v g => g.InviteType = "direct_invite" ∧ g.InviterId = m.From.ID ∧
        g.Invitee = GetUserIdentifier v ∧ g.InviteeId = v.ID)
      (m.NewChatMembers.filter (fun v => decide (v.ID ≠ m.From.ID)))
      (addEdges w m.From s.nowCalls m.NewChatMembers) ∧
    (∀ g ∈ addEdges w m.From s.nowCalls m.NewChatMembers, g.InviteeId ≠ m.From.ID) ∧
    ((writeAll lib w s.f (addEdges w m.From s.nowCalls m.NewChatMembers)).2 = true →
      ∃ recs, (addEdges w m.From s.nowCalls m.NewChatMembers).map lib.marshal
          = recs.map some ∧
        (handleUpdate lib baseRoomId w s u).state.f.content
          = s.f.content ++ concatRecords recs) ∧
    (∀ B C : User, B.ID ≠ m.From.ID → C.ID ≠ m.From.ID →
      m.NewChatMembers = [B, C] ∨ m.NewChatMembers = [m.From, B, C] →
      addEdges w m.From s.nowCalls m.NewChatMembers
        = [{ Inviter := m.From.UserName, InviterId := m.From.ID,
             Invitee := GetUserIdentifier B, InviteeId := B.ID,
             InviteType := "direct_invite", Timestamp := w.now s.nowCalls },
           { Inviter := m.From.UserName, InviterId := m.From.ID,
             Invitee := GetUserIdentifier C, InviteeId := C.ID,
             InviteType := "direct_invite", Timestamp := w.now (s.nowCalls + 1) }]) := by
  have hf : (handleUpdate lib baseRoomId w s u).state.f
      = (writeAll lib w s.f (addEdges w m.From s.nowCalls m.NewChatMembers)).1 := by
    rw [handleUpdate_message lib baseRoomId w s u m hu1 hu2]
    unfold handleMessage
    rw [inviteCommand_f, addMembers_f]
  refine ⟨hf, addEdges_forall2 w m.From s.nowCalls m.NewChatMembers,
    addEdges_invitee_ne w m.From s.nowCalls m.NewChatMembers, ?_, ?_⟩
  · intro hok
    obtain ⟨recs, h1, h2⟩ := writeAll_ok lib w s.f _ hok
    exact ⟨recs, h1, by rw [hf, h2]⟩
  · intro B C hB hC hL
    rcases hL with hL | hL
    · rw [hL]
      simp [addEdges, hB, hC, addEdge, DirectInvite]
    · rw [hL]
      simp [addEdges, hB, hC, addEdge, DirectInvite]

/-- Witness of C4, amended: Alice adds Bob and Carol. -/
theorem direct_add_edges_witness :
    (handleUpdate demoLib demoRoom goodWorld emptyState addUpdate).state.f
      = (writeAll demoLib goodWorld emptyState.f
          (addEdges goodWorld alice emptyState.nowCalls [bob, carol])).1 ∧
    List.Forall₂
      (fun v g => g.InviteType = "direct_invite" ∧ g.InviterId = alice.ID ∧
        g.Invitee = GetUserIdentifier v ∧ g.InviteeId = v.ID)
      ([bob, carol].filter (fun v => decide (v.ID ≠ alice.ID)))
      (addEdges goodWorld alice emptyState.nowCalls [bob, carol]) ∧
    (∀ g ∈ addEdges goodWorld alice emptyState.nowCalls [bob, carol],
      g.InviteeId ≠ alice.ID) ∧
    ((writeAll demoLib goodWorld emptyState.f
        (addEdges goodWorld alice emptyState.nowCalls [bob, carol])).2 = true →
      ∃ recs, (addEdges goodWorld alice emptyState.nowCalls [bob, carol]).map demoLib.marshal
          = recs.map some ∧
        (handleUpdate demoLib demoRoom goodWorld emptyState addUpdate).state.f.content
          = emptyState.f.content ++ concatRecords recs) ∧
    (∀ B C : User, B.ID ≠ alice.ID → C.ID ≠ alice.ID →
      [bob, carol] = [B, C] ∨ [bob, carol] = [alice, B, C] →
      addEdges goodWorld alice emptyState.nowCalls [bob, carol]
        = [{ Inviter := alice.UserName, InviterId := alice.ID,
             Invitee := GetUserIdentifier B, InviteeId := B.ID,
             InviteType := "direct_invite",
             Timestamp := goodWorld.now emptyState.nowCalls },
           { Inviter := alice.UserName, InviterId := alice.ID,
             Invitee := GetUserIdentifier C, InviteeId := C.ID,
             InviteType := "direct_invite",
             Timestamp := goodWorld.now (emptyState.nowCalls + 1) }]) :=
  direct_add_edges demoLib demoRoom goodWorld emptyState addUpdate
    ⟨8, alice, groupChat, "", [bob, carol]⟩ rfl rfl

/-- C10: the code at the failing input.  Alice has no username, so her
identifier is her first name "Alice"; she adds Bob and Carol and every write
succeeds; the two records appended have the empty string as inviter. -/
theorem direct_add_inviter_is_raw_username :
    alice.UserName = "" ∧ GetUserIdentifier alice = "Alice" ∧
    (handleUpdate demoLib demoRoom goodWorld emptyState addUpdate).alive = true ∧
    (handleUpdate demoLib demoRoom goodWorld emptyState addUpdate).state.f.content
      = "\x7b\"inviter\":\"\",\"inviter_id\":1,\"invitee\":\"bob\",\"invitee_id\":2,"
        ++ "\"invite_type\":\"direct_invite\",\"timestamp\":1700000000\x7d\n"
        ++ "\x7b\"inviter\":\"\",\"inviter_id\":1,\"invitee\":\"carol\",\"invitee_id\":3,"
        ++ "\"invite_type\":\"direct_invite\",\"timestamp\":1700000001\x7d\n" := by
  decide

/-! ## Welcome messages -/

/-- C8. A join request whose approval is Ok sends exactly one welcome message
to the chat for the joining user, and the loop goes on, whatever the lookup
of the token and whatever `WriteInvite` returns.  A message sends, in list
order, exactly one welcome message to the chat for every new member other
than the sender, whatever `WriteInvite` returns; the only other message it
can send is the reply with a generated link, and the process ends only when
a private `/invite` command fails, never because of the log. -/
theorem welcome_messages (lib : Lib) (baseRoomId : Int) (w : World) (s : State) :
    (∀ (u : Update) (j : ChatJoinRequest) (resp : APIResponse),
      u.ChatJoinRequest = some j → w.request s.requests.length = some resp →
      resp.Ok = true →
      ∃ s1, handleUpdate lib baseRoomId w s u = .next s1 ∧
        s1.sent = s.sent ++
          [{ ChatID := j.Chat.ID
             Text := "Say hello to " ++ GetUserIdentifier j.From
               ++ " who just joined us by invite from: "
               ++ (resolve s.invites j.InviteLink).1.format
             ReplyToMessageID := 0 }]) ∧
    (∀ (u : Update) (m : Message), u.ChatJoinRequest = none → u.Message = some m →
      ∃ rest, (handleUpdate lib baseRoomId w s u).state.sent
          = s.sent ++ (m.NewChatMembers.filter (fun v => decide (v.ID ≠ m.From.ID))).map
              (fun v => { ChatID := m.Chat.ID
                          Text := "Hi welcome @" ++ GetUserIdentifier v ++ "!"
                          ReplyToMessageID := 0 }) ++ rest ∧
        (rest = [] ∨ ∃ link, rest = [linkReply m link]) ∧
        ((handleUpdate lib baseRoomId w s u).alive = false →
          strContains m.Text.data "/invite".data = true ∧ m.Chat.IsPrivate = true ∧
            rest = [])) := by
  constructor
  · intro u j resp hu hr hok
    rw [handleUpdate_join lib baseRoomId w s u j hu, handleJoinRequest_ok lib w s j resp hr hok]
    exact ⟨_, rfl, rfl⟩
  · intro u m hu1 hu2
    rw [handleUpdate_message lib baseRoomId w s u m hu1 hu2]
    unfold handleMessage
    obtain ⟨rest, h1, h2, h3⟩ := inviteCommand_sent lib baseRoomId w
      (addMembers lib w m.Chat.ID m.From s m.NewChatMembers) m
    refine ⟨rest, ?_, h2, h3⟩
    rw [h1, addMembers_sent]
    rfl

/-- Witness of C8: with every write on the log file failing, Bob joins with a
link that is not registered, and Alice adds Bob and Carol. -/
theorem welcome_messages_witness :
    (∃ s1, handleUpdate demoLib demoRoom diskFullWorld emptyState joinUpdate = .next s1 ∧
      s1.sent = emptyState.sent ++
        [{ ChatID := groupChat.ID
           Text := "Say hello to " ++ GetUserIdentifier bob
             ++ " who just joined us by invite from: "
             ++ (resolve emptyState.invites "https://t.me/+abc").1.format
           ReplyToMessageID := 0 }]) ∧
    (∃ rest, (handleUpdate demoLib demoRoom diskFullWorld emptyState addUpdate).state.sent
        = emptyState.sent ++ ([bob, carol].filter (fun v => decide (v.ID ≠ alice.ID))).map
            (fun v => { ChatID := groupChat.ID
                        Text := "Hi welcome @" ++ GetUserIdentifier v ++ "!"
                        ReplyToMessageID := 0 }) ++ rest ∧
      (rest = [] ∨ ∃ link, rest = [linkReply ⟨8, alice, groupChat, "", [bob, carol]⟩ link]) ∧
      ((handleUpdate demoLib demoRoom diskFullWorld emptyState addUpdate).alive = false →
        strContains "".data "/invite".data = true ∧ groupChat.IsPrivate = true ∧
          rest = [])) :=
  ⟨(welcome_messages demoLib demoRoom diskFullWorld emptyState).1 joinUpdate
      ⟨groupChat, bob, "https://t.me/+abc"⟩ ⟨true, "https://t.me/+abc"⟩ rfl rfl rfl,
    (welcome_messages demoLib demoRoom diskFullWorld emptyState).2 addUpdate
      ⟨8, alice, groupChat, "", [bob, carol]⟩ rfl rfl⟩

end HackerDrunk
